import Mathlib

set_option maxRecDepth 400000

/-!
Verification of the concurrent pipeline in `src/main.rs`: a generator stage,
a pool of two square workers, a merge (fan-in) stage and an orchestrator that
round-robins generated numbers to the workers and finally drains the results
channel.  Payloads are `u8` in the source; they are modelled as `Nat` reduced
modulo 256 at every arithmetic operation that can overflow.  The concurrent
execution is modelled as an explicit-schedule interleaving semantics: a system
state records every channel queue, the liveness of every send/receive end and
the local state of each of the five execution contexts, and `stepThread`
executes one atomic step of one thread.  Ghost history fields (`genSent`,
`dispatched`, `c0`, `c1`, `mergeRecv`, `drained`) record what each stage has
processed; they are never read by any step function.
-/

/-- Message type of the pipeline (`enum PipelineMsg` in `src/main.rs`). -/
inductive PipelineMsg where
  | Generated : Nat → PipelineMsg
  | Squared : Nat → PipelineMsg
  | Merged : Nat → PipelineMsg
deriving DecidableEq

/-- Payload carried by a message. -/
def payload : PipelineMsg → Nat
  | .Generated n => n
  | .Squared n => n
  | .Merged n => n

/-- Value produced by the generator at its n-th iteration: `num` starts at 2
and `num = num + 1` on a `u8` each loop iteration (`generate` in the source),
hence the wrap modulo 256. -/
def genSeq : Nat → Nat
  | 0 => 2
  | n + 1 => (genSeq n + 1) % 256

/-- Body of the square stage's match on a received message (`square` in the
source): a `Generated` number is squared (as `u8`, hence mod 256), any other
variant aborts the stage with a diagnostic. -/
def squareMsg : PipelineMsg → Except String PipelineMsg
  | .Generated num => .ok (.Squared (num * num % 256))
  | _ => .error "Unexpected message receiving at square stage"

/-- Body of the merge stage's match on a received message (`merge` in the
source): a `Squared` number is forwarded unchanged as `Merged`, any other
variant aborts the stage with a diagnostic. -/
def mergeMsg : PipelineMsg → Except String PipelineMsg
  | .Squared num => .ok (.Merged num)
  | _ => .error "Unexpected message receiving at merge stage"

/-- Body of the orchestrator's match on a message received from the generated
channel (dispatch loop in `main`). -/
def dispatchMsg : PipelineMsg → Except String Nat
  | .Generated num => .ok num
  | _ => .error "Unexpected message receiving from generated stage"

/-- Body of the orchestrator's match in the final drain loop in `main`. -/
def drainMsg : PipelineMsg → Except String Nat
  | .Merged num => .ok num
  | _ => .error "Unexpected result"

/-- Round-robin distribution (dispatch loop in `main`): for each message, pop
the front worker from the queue, assign the message to it, push that worker to
the back. -/
def rrAssign {α : Type} : List α → List Nat → List (Nat × α)
  | [], _ => []
  | _ :: _, [] => []
  | m :: ms, w :: ws => (w, m) :: rrAssign ms (ws ++ [w])

/-- Number of messages a given worker receives under an assignment. -/
def workerLoad {α : Type} (w : Nat) (asg : List (Nat × α)) : Nat :=
  (asg.filter (fun p => p.1 == w)).length

/-- Control state of the orchestrator (`main`): dispatching generated numbers
(holding the `VecDeque` of worker send-ends), draining the results channel,
finished, or crashed by one of its `panic!` arms. -/
inductive OrchPhase where
  | dispatch : List Nat → OrchPhase
  | drain : OrchPhase
  | done : OrchPhase
  | crashed : OrchPhase
deriving DecidableEq

/-- Global state of the interleaved system.  Channel queues are FIFO lists
(front = head).  `genRxOpen` is whether the orchestrator still holds the
receive-end of the generated channel; `wSendersOpen` is whether the
orchestrator's scope still holds the two worker send-ends; `genDone`,
`w0Done`, `w1Done`, `mrgDone` record that the corresponding thread has exited
its loop and dropped its send-ends.  The fields after `aborted` are ghost
history fields, never read by any step function. -/
structure SysState where
  genNum : Nat
  genDone : Bool
  genRxOpen : Bool
  genQ : List PipelineMsg
  w0Q : List PipelineMsg
  w1Q : List PipelineMsg
  wSendersOpen : Bool
  w0Done : Bool
  w1Done : Bool
  mergeQ : List PipelineMsg
  mrgDone : Bool
  resQ : List PipelineMsg
  orch : OrchPhase
  aborted : Bool
  genSent : List Nat
  dispatched : List Nat
  c0 : Nat
  c1 : Nat
  mergeRecv : List Nat
  drained : List Nat
deriving DecidableEq

/-- The five execution contexts: generator thread, main (orchestrator), the
two square workers, and the merge thread. -/
inductive Tid where
  | gen | orch | w0 | w1 | mrg
deriving DecidableEq

/-- One step of the generator thread (`generate`): attempt to send
`Generated(num)`; on success increment `num` (u8, mod 256) and continue, on
failure (receive-end dropped) exit the loop and drop the send-end. -/
def genStep (s : SysState) : Option SysState :=
  if s.genDone then none
  else if s.genRxOpen then
    some { s with genQ := s.genQ ++ [.Generated s.genNum],
                  genSent := s.genSent ++ [s.genNum],
                  genNum := (s.genNum + 1) % 256 }
  else some { s with genDone := true }

/-- One step of the first square worker (`square`): receive from its inbound
channel, square a `Generated` payload and send `Squared` into the shared merge
channel (silently dropped if the merge receive-end is gone, as the source
ignores the send result); on an unexpected variant the thread panics, which
unwinds and drops its clone of the merge send-end; when the queue is empty and
all send-ends are dropped, exit and drop the merge send-end clone. -/
def w0Step (s : SysState) : Option SysState :=
  if s.w0Done then none
  else match s.w0Q with
    | m :: rest =>
      match squareMsg m with
      | .ok out =>
        let mq := if s.mrgDone then s.mergeQ else s.mergeQ ++ [out]
        some { s with w0Q := rest, c0 := s.c0 + 1, mergeQ := mq }
      | .error _ => some { s with w0Q := rest, w0Done := true, aborted := true }
    | [] => if s.wSendersOpen then none else some { s with w0Done := true }

/-- One step of the second square worker; identical to `w0Step` on the other
inbound channel. -/
def w1Step (s : SysState) : Option SysState :=
  if s.w1Done then none
  else match s.w1Q with
    | m :: rest =>
      match squareMsg m with
      | .ok out =>
        let mq := if s.mrgDone then s.mergeQ else s.mergeQ ++ [out]
        some { s with w1Q := rest, c1 := s.c1 + 1, mergeQ := mq }
      | .error _ => some { s with w1Q := rest, w1Done := true, aborted := true }
    | [] => if s.wSendersOpen then none else some { s with w1Done := true }

/-- One step of the merge thread (`merge`): receive from the shared merge
channel, forward a `Squared` payload as `Merged` into the results channel; on
an unexpected variant panic (dropping the results send-end); when the queue is
empty and both workers have dropped their send-end clones, exit and drop the
results send-end. -/
def mrgStep (s : SysState) : Option SysState :=
  if s.mrgDone then none
  else match s.mergeQ with
    | m :: rest =>
      match mergeMsg m with
      | .ok out =>
        let rq := if s.orch = .done then s.resQ else s.resQ ++ [out]
        some { s with mergeQ := rest, mergeRecv := s.mergeRecv ++ [payload m],
                      resQ := rq }
      | .error _ => some { s with mergeQ := rest, mrgDone := true, aborted := true }
    | [] => if s.w0Done && s.w1Done then some { s with mrgDone := true } else none

/-- One step of the orchestrator (`main`).  While dispatching: receive a
generated message, pop the front worker send-end (panicking if the queue were
empty, as the source unwraps), send the message to that worker, push the
send-end to the back; on the stop value 3, break: the receive-end of the
generated channel is dropped (discarding whatever is still enqueued) and the
scope holding the worker send-ends ends.  If the generated channel closes
instead, the dispatch loop ends normally with the same drops.  While draining:
receive `Merged` results until the results channel is empty and its send-end
dropped. -/
def orchStep (s : SysState) : Option SysState :=
  match s.orch with
  | .dispatch wq =>
    match s.genQ with
    | m :: rest =>
      match dispatchMsg m with
      | .ok num =>
        match wq with
        | [] => some { s with orch := .crashed, aborted := true }
        | w :: ws =>
          let s1 := { s with genQ := rest, dispatched := s.dispatched ++ [num] }
          let s2 := if w = 0 then
              { s1 with w0Q := if s1.w0Done then s1.w0Q else s1.w0Q ++ [m] }
            else
              { s1 with w1Q := if s1.w1Done then s1.w1Q else s1.w1Q ++ [m] }
          if num = 3 then
            some { s2 with orch := .drain, genRxOpen := false, genQ := [],
                           wSendersOpen := false }
          else some { s2 with orch := .dispatch (ws ++ [w]) }
      | .error _ => some { s with orch := .crashed, aborted := true }
    | [] =>
      if s.genDone then
        some { s with orch := .drain, genRxOpen := false, wSendersOpen := false }
      else none
  | .drain =>
    match s.resQ with
    | m :: rest =>
      match drainMsg m with
      | .ok num => some { s with resQ := rest, drained := s.drained ++ [num] }
      | .error _ => some { s with orch := .crashed, aborted := true }
    | [] => if s.mrgDone then some { s with orch := .done } else none
  | .done => none
  | .crashed => none

/-- Dispatcher of one atomic step to the chosen thread; `none` means the
thread is blocked on a receive or has terminated. -/
def stepThread : Tid → SysState → Option SysState
  | .gen, s => genStep s
  | .orch, s => orchStep s
  | .w0, s => w0Step s
  | .w1, s => w1Step s
  | .mrg, s => mrgStep s

/-- Initial state after wiring in `main`: all channels empty and open, the
worker queue holds the send-ends of worker 0 and worker 1 in that order, the
generator counter starts at the seed 2. -/
def initState : SysState :=
  { genNum := 2, genDone := false, genRxOpen := true, genQ := [],
    w0Q := [], w1Q := [], wSendersOpen := true, w0Done := false,
    w1Done := false, mergeQ := [], mrgDone := false, resQ := [],
    orch := .dispatch [0, 1], aborted := false, genSent := [],
    dispatched := [], c0 := 0, c1 := 0, mergeRecv := [], drained := [] }

/-- Execution of the system under an explicit schedule: each entry names the
thread that takes the next step; a blocked or finished thread leaves the state
unchanged. -/
def run (sched : List Tid) : SysState :=
  sched.foldl (fun s t => (stepThread t s).getD s) initState

/-- A schedule that runs the whole pipeline to completion. -/
def completeSched : List Tid :=
  [.gen, .gen, .orch, .orch, .gen, .w0, .w0, .w1, .w1, .mrg, .mrg, .mrg,
   .orch, .orch, .orch]

/-- A schedule in which the generator races ahead and sends 2, 3 and 4 before
the orchestrator dispatches 2 and 3 and breaks, discarding the enqueued 4. -/
def raceSched : List Tid :=
  [.gen, .gen, .gen, .orch, .orch, .gen, .w0, .w0, .w1, .w1, .mrg, .mrg,
   .mrg, .orch, .orch, .orch]

/-- A schedule in which only the generator runs, long enough for its `u8`
counter to wrap around. -/
def wrapSched : List Tid := List.replicate 255 .gen

/-- Number of messages the orchestrator has sent to a worker after `d`
dispatches: the k-th dispatch (k = 1 for worker 0, k = 2 for worker 1) has
happened iff `k ≤ d`. -/
def recvCount (k d : Nat) : Nat := if k ≤ d then 1 else 0

theorem drop_append_singleton {α : Type} {l : List α} {x : α} {n : Nat}
    (h : n ≤ l.length) : (l ++ [x]).drop n = l.drop n ++ [x] := by
  rw [List.drop_append_eq_append_drop, Nat.sub_eq_zero_of_le h, List.drop_zero]

theorem take_append_singleton {α : Type} {l : List α} {x : α} {n : Nat}
    (h : n ≤ l.length) : (l ++ [x]).take n = l.take n := by
  rw [List.take_append_eq_append_take, Nat.sub_eq_zero_of_le h, List.take_zero,
    List.append_nil]

/-- Reachability invariant of the pipeline: it pins down the contents of every
channel queue in terms of the ghost history fields, ties each thread's
termination flag to the closure of its inbound channel, and balances the
multiset of payloads flowing through the merge stage. -/
structure SysInv (s : SysState) : Prop where
  no_abort : s.aborted = false
  not_crashed : s.orch ≠ .crashed
  disp_le : s.dispatched.length ≤ 2
  disp_val : s.dispatched = [2, 3].take s.dispatched.length
  phase_disp : ∀ wq, s.orch = .dispatch wq →
    s.dispatched.length ≤ 1 ∧
    wq = (if s.dispatched.length = 0 then [0, 1] else [1, 0]) ∧
    s.genRxOpen = true ∧ s.wSendersOpen = true
  phase_nd : s.orch = .drain ∨ s.orch = .done →
    s.dispatched.length = 2 ∧ s.genRxOpen = false ∧
    s.wSendersOpen = false ∧ s.genQ = []
  gen_sent : s.genSent = (List.range s.genSent.length).map genSeq
  gen_num : s.genDone = false → s.genNum = genSeq s.genSent.length
  gen_done : s.genDone = true → s.genRxOpen = false
  gen_q : s.genRxOpen = true →
    s.genQ = (s.genSent.drop s.dispatched.length).map PipelineMsg.Generated ∧
    s.dispatched.length ≤ s.genSent.length
  c0_le : s.c0 ≤ recvCount 1 s.dispatched.length
  w0_q : s.w0Q = if s.c0 < recvCount 1 s.dispatched.length
      then [PipelineMsg.Generated 2] else []
  c1_le : s.c1 ≤ recvCount 2 s.dispatched.length
  w1_q : s.w1Q = if s.c1 < recvCount 2 s.dispatched.length
      then [PipelineMsg.Generated 3] else []
  w0_done : s.w0Done = true →
    s.wSendersOpen = false ∧ s.c0 = recvCount 1 s.dispatched.length
  w1_done : s.w1Done = true →
    s.wSendersOpen = false ∧ s.c1 = recvCount 2 s.dispatched.length
  produced : (s.mergeRecv : Multiset Nat) + (↑(s.mergeQ.map payload) : Multiset Nat) =
    (if s.c0 = 1 then {4} else 0) + (if s.c1 = 1 then {9} else 0)
  mq_shape : ∀ m ∈ s.mergeQ, m = PipelineMsg.Squared 4 ∨ m = PipelineMsg.Squared 9
  mrg_done : s.mrgDone = true → s.w0Done = true ∧ s.w1Done = true ∧ s.mergeQ = []
  res_q : s.resQ = (s.mergeRecv.drop s.drained.length).map PipelineMsg.Merged
  res_drained : s.drained = s.mergeRecv.take s.drained.length
  orch_done : s.orch = .done → s.mrgDone = true ∧ s.resQ = []

theorem initState_inv : SysInv initState := by
  refine { no_abort := rfl, not_crashed := by simp [initState],
           disp_le := by simp [initState],
           disp_val := rfl,
           phase_disp := ?_, phase_nd := ?_,
           gen_sent := rfl, gen_num := fun _ => rfl,
           gen_done := ?_, gen_q := ?_,
           c0_le := by simp [initState, recvCount],
           w0_q := by simp [initState, recvCount],
           c1_le := by simp [initState, recvCount],
           w1_q := by simp [initState, recvCount],
           w0_done := ?_, w1_done := ?_,
           produced := by simp [initState],
           mq_shape := by simp [initState],
           mrg_done := ?_, res_q := rfl, res_drained := rfl, orch_done := ?_ }
  · intro wq h
    have : wq = [0, 1] := by
      have h' : OrchPhase.dispatch [0, 1] = OrchPhase.dispatch wq := h
      injection h' with h''
      exact h''.symm
    subst this
    simp [initState]
  · intro h
    rcases h with h | h <;> simp [initState] at h
  · intro h; simp [initState] at h
  · intro _; simp [initState]
  · intro h; simp [initState] at h
  · intro h; simp [initState] at h
  · intro h; simp [initState] at h
  · intro h; simp [initState] at h

theorem genStep_inv {s s' : SysState} (hs : SysInv s) (h : genStep s = some s') :
    SysInv s' := by
  unfold genStep at h
  by_cases hd : s.genDone = true
  · simp [hd] at h
  · rw [if_neg hd] at h
    have hgd : s.genDone = false := by revert hd; cases s.genDone <;> simp
    by_cases hrx : s.genRxOpen = true
    · rw [if_pos hrx] at h
      obtain rfl := Option.some.inj h
      have hnum : s.genNum = genSeq s.genSent.length := hs.gen_num hgd
      have hdle : s.dispatched.length ≤ s.genSent.length := (hs.gen_q hrx).2
      refine { no_abort := hs.no_abort, not_crashed := hs.not_crashed,
               disp_le := hs.disp_le, disp_val := hs.disp_val,
               phase_disp := hs.phase_disp, phase_nd := ?_,
               gen_sent := ?_, gen_num := ?_, gen_done := ?_, gen_q := ?_,
               c0_le := hs.c0_le, w0_q := hs.w0_q, c1_le := hs.c1_le,
               w1_q := hs.w1_q, w0_done := hs.w0_done, w1_done := hs.w1_done,
               produced := hs.produced, mq_shape := hs.mq_shape,
               mrg_done := hs.mrg_done, res_q := hs.res_q,
               res_drained := hs.res_drained, orch_done := hs.orch_done }
      · intro hph
        exact absurd (hs.phase_nd hph).2.1 (by simp [hrx])
      · show s.genSent ++ [s.genNum] =
          (List.range (s.genSent ++ [s.genNum]).length).map genSeq
        rw [List.length_append, List.length_singleton, List.range_succ,
          List.map_append]
        rw [← hs.gen_sent, hnum]
        rfl
      · intro _
        show (s.genNum + 1) % 256 = genSeq (s.genSent ++ [s.genNum]).length
        rw [List.length_append, List.length_singleton, hnum]
        rfl
      · intro hh
        exact absurd hh hd
      · intro _
        constructor
        · show s.genQ ++ [.Generated s.genNum] =
            ((s.genSent ++ [s.genNum]).drop s.dispatched.length).map .Generated
          rw [drop_append_singleton hdle, List.map_append, (hs.gen_q hrx).1]
          rfl
        · show s.dispatched.length ≤ (s.genSent ++ [s.genNum]).length
          rw [List.length_append, List.length_singleton]
          omega
    · rw [if_neg hrx] at h
      obtain rfl := Option.some.inj h
      have hrxf : s.genRxOpen = false := by revert hrx; cases s.genRxOpen <;> simp
      refine { no_abort := hs.no_abort, not_crashed := hs.not_crashed,
               disp_le := hs.disp_le, disp_val := hs.disp_val,
               phase_disp := hs.phase_disp, phase_nd := hs.phase_nd,
               gen_sent := hs.gen_sent, gen_num := ?_, gen_done := ?_,
               gen_q := ?_,
               c0_le := hs.c0_le, w0_q := hs.w0_q, c1_le := hs.c1_le,
               w1_q := hs.w1_q, w0_done := hs.w0_done, w1_done := hs.w1_done,
               produced := hs.produced, mq_shape := hs.mq_shape,
               mrg_done := hs.mrg_done, res_q := hs.res_q,
               res_drained := hs.res_drained, orch_done := hs.orch_done }
      · intro hh
        exact absurd hh (by simp)
      · intro _
        exact hrxf
      · intro hh
        exact absurd hh hrx

theorem w0Step_inv {s s' : SysState} (hs : SysInv s) (h : w0Step s = some s') :
    SysInv s' := by
  unfold w0Step at h
  by_cases hd : s.w0Done = true
  · simp [hd] at h
  · rw [if_neg hd] at h
    have hmd : s.mrgDone = false := by
      cases hmm : s.mrgDone
      · rfl
      · exact absurd (hs.mrg_done hmm).1 hd
    by_cases hc : s.c0 < recvCount 1 s.dispatched.length
    · have hq2 : s.w0Q = [PipelineMsg.Generated 2] := by rw [hs.w0_q, if_pos hc]
      have hd1 : 1 ≤ s.dispatched.length := by
        by_contra hh
        simp [recvCount, hh] at hc
      have hc0 : s.c0 = 0 := by
        have := hs.c0_le
        simp [recvCount, hd1] at this hc
        omega
      rw [hq2] at h
      replace h : some ({ s with w0Q := [], c0 := s.c0 + 1,
                                 mergeQ := if s.mrgDone = true then s.mergeQ
                                   else s.mergeQ ++ [PipelineMsg.Squared 4]
                        } : SysState) = some s' := h
      rw [if_neg (by simp [hmd])] at h
      obtain rfl := Option.some.inj h
      have hp := hs.produced
      rw [hc0] at hp
      simp only [Nat.zero_ne_one, if_false, zero_add] at hp
      refine { no_abort := hs.no_abort, not_crashed := hs.not_crashed,
               disp_le := hs.disp_le, disp_val := hs.disp_val,
               phase_disp := hs.phase_disp, phase_nd := hs.phase_nd,
               gen_sent := hs.gen_sent, gen_num := hs.gen_num,
               gen_done := hs.gen_done, gen_q := hs.gen_q,
               c0_le := ?_, w0_q := ?_, c1_le := hs.c1_le, w1_q := hs.w1_q,
               w0_done := ?_, w1_done := hs.w1_done,
               produced := ?_, mq_shape := ?_, mrg_done := ?_,
               res_q := hs.res_q, res_drained := hs.res_drained,
               orch_done := hs.orch_done }
      · show s.c0 + 1 ≤ recvCount 1 s.dispatched.length
        simp [recvCount, hd1, hc0]
      · show ([] : List PipelineMsg) =
          if s.c0 + 1 < recvCount 1 s.dispatched.length
          then [PipelineMsg.Generated 2] else []
        simp [recvCount, hd1, hc0]
      · intro hh
        exact absurd hh hd
      · show (s.mergeRecv : Multiset Nat) +
          (↑((s.mergeQ ++ [PipelineMsg.Squared 4]).map payload) : Multiset Nat) =
          (if s.c0 + 1 = 1 then {4} else 0) + (if s.c1 = 1 then {9} else 0)
        rw [hc0]
        simp only [List.map_append, List.map_cons, List.map_nil,
          ← Multiset.coe_add, Multiset.coe_singleton, Nat.zero_add, if_pos rfl]
        rw [← add_assoc, hp, add_comm]
        rfl
      · intro m hm
        simp only [List.mem_append, List.mem_singleton] at hm
        rcases hm with hm | hm
        · exact hs.mq_shape m hm
        · exact Or.inl hm
      · intro hh
        exact absurd hh (by simp [hmd])
    · have hq0 : s.w0Q = [] := by rw [hs.w0_q, if_neg hc]
      rw [hq0] at h
      by_cases hso : s.wSendersOpen = true
      · replace h : (if s.wSendersOpen = true then none
            else some ({ s with w0Q := [], w0Done := true } : SysState)) =
            some s' := h
        rw [if_pos hso] at h
        exact absurd h (by simp)
      · have hsof : s.wSendersOpen = false := by
          revert hso; cases s.wSendersOpen <;> simp
        replace h : (if s.wSendersOpen = true then none
            else some ({ s with w0Q := [], w0Done := true } : SysState)) =
            some s' := h
        rw [if_neg hso] at h
        obtain rfl := Option.some.inj h
        refine { no_abort := hs.no_abort, not_crashed := hs.not_crashed,
                 disp_le := hs.disp_le, disp_val := hs.disp_val,
                 phase_disp := hs.phase_disp, phase_nd := hs.phase_nd,
                 gen_sent := hs.gen_sent, gen_num := hs.gen_num,
                 gen_done := hs.gen_done, gen_q := hs.gen_q,
                 c0_le := hs.c0_le, w0_q := ?_, c1_le := hs.c1_le,
                 w1_q := hs.w1_q, w0_done := ?_, w1_done := hs.w1_done,
                 produced := hs.produced, mq_shape := hs.mq_shape,
                 mrg_done := ?_, res_q := hs.res_q,
                 res_drained := hs.res_drained, orch_done := hs.orch_done }
        · show ([] : List PipelineMsg) =
            if s.c0 < recvCount 1 s.dispatched.length
            then [PipelineMsg.Generated 2] else []
          exact hq0 ▸ hs.w0_q
        · intro _
          show s.wSendersOpen = false ∧ s.c0 = recvCount 1 s.dispatched.length
          have := hs.c0_le
          exact ⟨hsof, by omega⟩
        · intro hh
          exact ⟨rfl, (hs.mrg_done hh).2.1, (hs.mrg_done hh).2.2⟩

theorem w1Step_inv {s s' : SysState} (hs : SysInv s) (h : w1Step s = some s') :
    SysInv s' := by
  unfold w1Step at h
  by_cases hd : s.w1Done = true
  · simp [hd] at h
  · rw [if_neg hd] at h
    have hmd : s.mrgDone = false := by
      cases hmm : s.mrgDone
      · rfl
      · exact absurd (hs.mrg_done hmm).2.1 hd
    by_cases hc : s.c1 < recvCount 2 s.dispatched.length
    · have hq2 : s.w1Q = [PipelineMsg.Generated 3] := by rw [hs.w1_q, if_pos hc]
      have hd2 : 2 ≤ s.dispatched.length := by
        by_contra hh
        simp [recvCount, hh] at hc
      have hc1 : s.c1 = 0 := by
        have := hs.c1_le
        simp [recvCount, hd2] at this hc
        omega
      rw [hq2] at h
      replace h : some ({ s with w1Q := [], c1 := s.c1 + 1,
                                 mergeQ := if s.mrgDone = true then s.mergeQ
                                   else s.mergeQ ++ [PipelineMsg.Squared 9]
                        } : SysState) = some s' := h
      rw [if_neg (by simp [hmd])] at h
      obtain rfl := Option.some.inj h
      have hp := hs.produced
      rw [hc1] at hp
      simp only [Nat.zero_ne_one, if_false, add_zero] at hp
      refine { no_abort := hs.no_abort, not_crashed := hs.not_crashed,
               disp_le := hs.disp_le, disp_val := hs.disp_val,
               phase_disp := hs.phase_disp, phase_nd := hs.phase_nd,
               gen_sent := hs.gen_sent, gen_num := hs.gen_num,
               gen_done := hs.gen_done, gen_q := hs.gen_q,
               c0_le := hs.c0_le, w0_q := hs.w0_q, c1_le := ?_, w1_q := ?_,
               w0_done := hs.w0_done, w1_done := ?_,
               produced := ?_, mq_shape := ?_, mrg_done := ?_,
               res_q := hs.res_q, res_drained := hs.res_drained,
               orch_done := hs.orch_done }
      · show s.c1 + 1 ≤ recvCount 2 s.dispatched.length
        simp [recvCount, hd2, hc1]
      · show ([] : List PipelineMsg) =
          if s.c1 + 1 < recvCount 2 s.dispatched.length
          then [PipelineMsg.Generated 3] else []
        simp [recvCount, hd2, hc1]
      · intro hh
        exact absurd hh hd
      · show (s.mergeRecv : Multiset Nat) +
          (↑((s.mergeQ ++ [PipelineMsg.Squared 9]).map payload) : Multiset Nat) =
          (if s.c0 = 1 then {4} else 0) + (if s.c1 + 1 = 1 then {9} else 0)
        rw [hc1]
        simp only [List.map_append, List.map_cons, List.map_nil,
          ← Multiset.coe_add, Multiset.coe_singleton, Nat.zero_add, if_pos rfl]
        rw [← add_assoc, hp]
        rfl
      · intro m hm
        simp only [List.mem_append, List.mem_singleton] at hm
        rcases hm with hm | hm
        · exact hs.mq_shape m hm
        · exact Or.inr hm
      · intro hh
        exact absurd hh (by simp [hmd])
    · have hq0 : s.w1Q = [] := by rw [hs.w1_q, if_neg hc]
      rw [hq0] at h
      by_cases hso : s.wSendersOpen = true
      · replace h : (if s.wSendersOpen = true then none
            else some ({ s with w1Q := [], w1Done := true } : SysState)) =
            some s' := h
        rw [if_pos hso] at h
        exact absurd h (by simp)
      · have hsof : s.wSendersOpen = false := by
          revert hso; cases s.wSendersOpen <;> simp
        replace h : (if s.wSendersOpen = true then none
            else some ({ s with w1Q := [], w1Done := true } : SysState)) =
            some s' := h
        rw [if_neg hso] at h
        obtain rfl := Option.some.inj h
        refine { no_abort := hs.no_abort, not_crashed := hs.not_crashed,
                 disp_le := hs.disp_le, disp_val := hs.disp_val,
                 phase_disp := hs.phase_disp, phase_nd := hs.phase_nd,
                 gen_sent := hs.gen_sent, gen_num := hs.gen_num,
                 gen_done := hs.gen_done, gen_q := hs.gen_q,
                 c0_le := hs.c0_le, w0_q := hs.w0_q, c1_le := hs.c1_le,
                 w1_q := ?_, w0_done := hs.w0_done, w1_done := ?_,
                 produced := hs.produced, mq_shape := hs.mq_shape,
                 mrg_done := ?_, res_q := hs.res_q,
                 res_drained := hs.res_drained, orch_done := hs.orch_done }
        · show ([] : List PipelineMsg) =
            if s.c1 < recvCount 2 s.dispatched.length
            then [PipelineMsg.Generated 3] else []
          exact hq0 ▸ hs.w1_q
        · intro _
          show s.wSendersOpen = false ∧ s.c1 = recvCount 2 s.dispatched.length
          have := hs.c1_le
          exact ⟨hsof, by omega⟩
        · intro hh
          exact ⟨(hs.mrg_done hh).1, rfl, (hs.mrg_done hh).2.2⟩

theorem mrgStep_inv {s s' : SysState} (hs : SysInv s) (h : mrgStep s = some s') :
    SysInv s' := by
  unfold mrgStep at h
  by_cases hd : s.mrgDone = true
  · simp [hd] at h
  · rw [if_neg hd] at h
    have hod : ¬(s.orch = OrchPhase.done) := fun hh =>
      absurd (hs.orch_done hh).1 hd
    cases hq : s.mergeQ with
    | cons m rest =>
      rw [hq] at h
      have hm := hs.mq_shape m (by rw [hq]; exact List.mem_cons_self m rest)
      obtain ⟨v, hv49, rfl⟩ : ∃ v, (v = 4 ∨ v = 9) ∧ m = .Squared v := by
        rcases hm with rfl | rfl
        · exact ⟨4, Or.inl rfl, rfl⟩
        · exact ⟨9, Or.inr rfl, rfl⟩
      replace h : some ({ s with mergeQ := rest,
                                 mergeRecv := s.mergeRecv ++ [v],
                                 resQ := if s.orch = OrchPhase.done then s.resQ
                                   else s.resQ ++ [PipelineMsg.Merged v]
                        } : SysState) = some s' := h
      rw [if_neg hod] at h
      obtain rfl := Option.some.inj h
      have hdl : s.drained.length ≤ s.mergeRecv.length := by
        have := congrArg List.length hs.res_drained
        simp at this
        omega
      have hp := hs.produced
      rw [hq] at hp
      simp only [List.map_cons, payload] at hp
      rw [← Multiset.cons_coe] at hp
      refine { no_abort := hs.no_abort, not_crashed := hs.not_crashed,
               disp_le := hs.disp_le, disp_val := hs.disp_val,
               phase_disp := hs.phase_disp, phase_nd := hs.phase_nd,
               gen_sent := hs.gen_sent, gen_num := hs.gen_num,
               gen_done := hs.gen_done, gen_q := hs.gen_q,
               c0_le := hs.c0_le, w0_q := hs.w0_q, c1_le := hs.c1_le,
               w1_q := hs.w1_q, w0_done := hs.w0_done, w1_done := hs.w1_done,
               produced := ?_, mq_shape := ?_, mrg_done := ?_,
               res_q := ?_, res_drained := ?_, orch_done := ?_ }
      · show (↑(s.mergeRecv ++ [v]) : Multiset Nat) +
          (↑(rest.map payload) : Multiset Nat) =
          (if s.c0 = 1 then {4} else 0) + (if s.c1 = 1 then {9} else 0)
        rw [← Multiset.coe_add, add_assoc, Multiset.coe_singleton,
          Multiset.singleton_add]
        exact hp
      · intro x hx
        exact hs.mq_shape x (by rw [hq]; exact List.mem_cons_of_mem _ hx)
      · intro hh
        exact absurd hh hd
      · show s.resQ ++ [PipelineMsg.Merged v] =
          ((s.mergeRecv ++ [v]).drop s.drained.length).map PipelineMsg.Merged
        rw [drop_append_singleton hdl, List.map_append, hs.res_q]
        rfl
      · show s.drained = (s.mergeRecv ++ [v]).take s.drained.length
        rw [take_append_singleton hdl]
        exact hs.res_drained
      · intro hh
        exact absurd hh hod
    | nil =>
      rw [hq] at h
      by_cases hb : (s.w0Done && s.w1Done) = true
      · replace h : (if (s.w0Done && s.w1Done) = true
            then some ({ s with mergeQ := [], mrgDone := true } : SysState)
            else none) = some s' := h
        rw [if_pos hb] at h
        obtain rfl := Option.some.inj h
        have hb' := (Bool.and_eq_true _ _).mp hb
        refine { no_abort := hs.no_abort, not_crashed := hs.not_crashed,
                 disp_le := hs.disp_le, disp_val := hs.disp_val,
                 phase_disp := hs.phase_disp, phase_nd := hs.phase_nd,
                 gen_sent := hs.gen_sent, gen_num := hs.gen_num,
                 gen_done := hs.gen_done, gen_q := hs.gen_q,
                 c0_le := hs.c0_le, w0_q := hs.w0_q, c1_le := hs.c1_le,
                 w1_q := hs.w1_q, w0_done := hs.w0_done, w1_done := hs.w1_done,
                 produced := ?_, mq_shape := ?_,
                 mrg_done := ?_, res_q := hs.res_q,
                 res_drained := hs.res_drained, orch_done := ?_ }
        · show (↑s.mergeRecv : Multiset Nat) +
            (↑(List.map payload ([] : List PipelineMsg)) : Multiset Nat) =
            (if s.c0 = 1 then {4} else 0) + (if s.c1 = 1 then {9} else 0)
          have hp := hs.produced
          rw [hq] at hp
          simpa using hp
        · intro x hx
          exact absurd hx (List.not_mem_nil x)
        · intro _
          exact ⟨hb'.1, hb'.2, rfl⟩
        · intro hh
          exact ⟨rfl, (hs.orch_done hh).2⟩
      · replace h : (if (s.w0Done && s.w1Done) = true
            then some ({ s with mergeQ := [], mrgDone := true } : SysState)
            else none) = some s' := h
        rw [if_neg hb] at h
        exact absurd h (by simp)

theorem orchStep_inv {s s' : SysState} (hs : SysInv s) (h : orchStep s = some s') :
    SysInv s' := by
  unfold orchStep at h
  cases hph : s.orch with
  | crashed =>
    rw [hph] at h
    exact absurd h (by simp)
  | done =>
    rw [hph] at h
    exact absurd h (by simp)
  | drain =>
    rw [hph] at h
    cases hq : s.resQ with
    | cons m rest =>
      rw [hq] at h
      cases hdrop : s.mergeRecv.drop s.drained.length with
      | nil =>
        have hres := hs.res_q
        rw [hq, hdrop] at hres
        simp at hres
      | cons y ys =>
        have hres := hs.res_q
        rw [hq, hdrop] at hres
        simp only [List.map_cons, List.cons.injEq] at hres
        obtain ⟨rfl, rfl⟩ := hres
        have hdlt : s.drained.length < s.mergeRecv.length := by
          have := congrArg List.length hdrop
          simp at this
          omega
        replace h : some ({ s with resQ := ys.map PipelineMsg.Merged,
                                   drained := s.drained ++ [y],
                                   orch := OrchPhase.drain
                          } : SysState) = some s' := h
        obtain rfl := Option.some.inj h
        have hget : s.mergeRecv[s.drained.length]? = some y := by
          rw [← List.head?_drop, hdrop]
          rfl
        refine { no_abort := hs.no_abort, not_crashed := by simp,
                 disp_le := hs.disp_le, disp_val := hs.disp_val,
                 phase_disp := ?_, phase_nd := ?_,
                 gen_sent := hs.gen_sent, gen_num := hs.gen_num,
                 gen_done := hs.gen_done, gen_q := hs.gen_q,
                 c0_le := hs.c0_le, w0_q := hs.w0_q, c1_le := hs.c1_le,
                 w1_q := hs.w1_q, w0_done := hs.w0_done,
                 w1_done := hs.w1_done, produced := hs.produced,
                 mq_shape := hs.mq_shape, mrg_done := hs.mrg_done,
                 res_q := ?_, res_drained := ?_, orch_done := ?_ }
        · intro wq hw
          simp at hw
        · intro _
          exact hs.phase_nd (Or.inl hph)
        · show ys.map PipelineMsg.Merged =
            (s.mergeRecv.drop ((s.drained ++ [y]).length)).map PipelineMsg.Merged
          rw [List.length_append, List.length_singleton, ← List.tail_drop,
            hdrop]
          rfl
        · show s.drained ++ [y] =
            s.mergeRecv.take ((s.drained ++ [y]).length)
          rw [List.length_append, List.length_singleton, List.take_succ, hget,
            ← hs.res_drained]
          rfl
        · intro hh
          simp at hh
    | nil =>
      rw [hq] at h
      by_cases hmd : s.mrgDone = true
      · replace h : (if s.mrgDone = true
            then some ({ s with resQ := [], orch := OrchPhase.done } : SysState)
            else none) = some s' := h
        rw [if_pos hmd] at h
        obtain rfl := Option.some.inj h
        refine { no_abort := hs.no_abort, not_crashed := by simp,
                 disp_le := hs.disp_le, disp_val := hs.disp_val,
                 phase_disp := ?_, phase_nd := ?_,
                 gen_sent := hs.gen_sent, gen_num := hs.gen_num,
                 gen_done := hs.gen_done, gen_q := hs.gen_q,
                 c0_le := hs.c0_le, w0_q := hs.w0_q, c1_le := hs.c1_le,
                 w1_q := hs.w1_q, w0_done := hs.w0_done,
                 w1_done := hs.w1_done, produced := hs.produced,
                 mq_shape := hs.mq_shape, mrg_done := hs.mrg_done,
                 res_q := ?_, res_drained := hs.res_drained,
                 orch_done := ?_ }
        · intro wq hw
          simp at hw
        · intro _
          exact hs.phase_nd (Or.inl hph)
        · show ([] : List PipelineMsg) =
            (s.mergeRecv.drop s.drained.length).map PipelineMsg.Merged
          exact hq ▸ hs.res_q
        · intro _
          exact ⟨hmd, rfl⟩
      · replace h : (if s.mrgDone = true
            then some ({ s with resQ := [], orch := OrchPhase.done } : SysState)
            else none) = some s' := h
        rw [if_neg hmd] at h
        exact absurd h (by simp)
  | dispatch wq =>
    rw [hph] at h
    obtain ⟨hd1, hwq, hrx, hso⟩ := hs.phase_disp wq hph
    have hw0f : s.w0Done = false := by
      cases hh : s.w0Done
      · rfl
      · exact absurd (hs.w0_done hh).1 (by simp [hso])
    have hw1f : s.w1Done = false := by
      cases hh : s.w1Done
      · rfl
      · exact absurd (hs.w1_done hh).1 (by simp [hso])
    cases hq : s.genQ with
    | nil =>
      rw [hq] at h
      by_cases hgd : s.genDone = true
      · exact absurd (hs.gen_done hgd) (by simp [hrx])
      · replace h : (if s.genDone = true
            then some ({ s with genQ := [], genRxOpen := false,
                                wSendersOpen := false,
                                orch := OrchPhase.drain } : SysState)
            else none) = some s' := h
        rw [if_neg hgd] at h
        exact absurd h (by simp)
    | cons m rest =>
      rw [hq] at h
      have hgq := (hs.gen_q hrx).1
      rw [hq] at hgq
      cases hdrop : s.genSent.drop s.dispatched.length with
      | nil =>
        rw [hdrop] at hgq
        simp at hgq
      | cons x xs =>
        rw [hdrop] at hgq
        simp only [List.map_cons, List.cons.injEq] at hgq
        obtain ⟨rfl, rfl⟩ := hgq
        have hdlt : s.dispatched.length < s.genSent.length := by
          have := congrArg List.length hdrop
          simp at this
          omega
        have hget : s.genSent[s.dispatched.length]? = some x := by
          rw [← List.head?_drop, hdrop]
          rfl
        have hx : x = genSeq s.dispatched.length := by
          rw [hs.gen_sent] at hget
          rw [List.getElem?_map, List.getElem?_range] at hget
          · simp at hget
            exact hget.symm
          · exact hdlt
        have hxs : s.genSent.drop (s.dispatched.length + 1) = xs := by
          rw [← List.tail_drop, hdrop]
          rfl
        by_cases hd0 : s.dispatched.length = 0
        · have hdnil : s.dispatched = [] := List.eq_nil_of_length_eq_zero hd0
          have hx2 : x = 2 := by rw [hx, hd0]; rfl
          subst hx2
          obtain rfl : wq = [0, 1] := by rw [hwq, if_pos hd0]
          replace h : some
              ({ s with genQ := xs.map PipelineMsg.Generated,
                        dispatched := s.dispatched ++ [2],
                        w0Q := if s.w0Done = true then s.w0Q
                          else s.w0Q ++ [PipelineMsg.Generated 2],
                        orch := OrchPhase.dispatch [1, 0] } : SysState) =
              some s' := h
          rw [if_neg (by simp [hw0f])] at h
          obtain rfl := Option.some.inj h
          have hc00 : s.c0 = 0 := by
            have := hs.c0_le
            simp [recvCount, hd0] at this
            exact this
          have hw0q : s.w0Q = [] := by
            rw [hs.w0_q, if_neg (by simp [recvCount, hd0])]
          have hc10 : s.c1 = 0 := by
            have := hs.c1_le
            simp [recvCount, hd0] at this
            exact this
          have hw1q : s.w1Q = [] := by
            rw [hs.w1_q, if_neg (by simp [recvCount, hd0])]
          refine { no_abort := hs.no_abort, not_crashed := by simp,
                   disp_le := ?_, disp_val := ?_,
                   phase_disp := ?_, phase_nd := ?_,
                   gen_sent := hs.gen_sent, gen_num := hs.gen_num,
                   gen_done := hs.gen_done, gen_q := ?_,
                   c0_le := ?_, w0_q := ?_, c1_le := ?_, w1_q := ?_,
                   w0_done := ?_, w1_done := ?_, produced := hs.produced,
                   mq_shape := hs.mq_shape, mrg_done := hs.mrg_done,
                   res_q := hs.res_q, res_drained := hs.res_drained,
                   orch_done := ?_ }
          · show (s.dispatched ++ [2]).length ≤ 2
            simp [hdnil]
          · show s.dispatched ++ [2] = [2, 3].take (s.dispatched ++ [2]).length
            simp [hdnil]
          · intro wq' hw
            have hw' : OrchPhase.dispatch [1, 0] = OrchPhase.dispatch wq' := hw
            injection hw' with hw''
            subst hw''
            refine ⟨by simp [hdnil], by simp [hdnil], hrx, hso⟩
          · intro hpn
            rcases hpn with hpn | hpn <;> simp at hpn
          · intro _
            constructor
            · show xs.map PipelineMsg.Generated =
                (s.genSent.drop ((s.dispatched ++ [2]).length)).map
                  PipelineMsg.Generated
              rw [List.length_append, List.length_singleton, hxs]
            · show (s.dispatched ++ [2]).length ≤ s.genSent.length
              rw [List.length_append, List.length_singleton]
              omega
          · show s.c0 ≤ recvCount 1 (s.dispatched ++ [2]).length
            simp [recvCount, hdnil, hc00]
          · show s.w0Q ++ [PipelineMsg.Generated 2] =
              if s.c0 < recvCount 1 (s.dispatched ++ [2]).length
              then [PipelineMsg.Generated 2] else []
            simp [recvCount, hdnil, hc00, hw0q]
          · show s.c1 ≤ recvCount 2 (s.dispatched ++ [2]).length
            simp [recvCount, hdnil, hc10]
          · show s.w1Q =
              if s.c1 < recvCount 2 (s.dispatched ++ [2]).length
              then [PipelineMsg.Generated 3] else []
            simp [recvCount, hdnil, hc10, hw1q]
          · intro hh
            exact absurd hh (by simp [hw0f])
          · intro hh
            exact absurd hh (by simp [hw1f])
          · intro hh
            simp at hh
        · have hd1' : s.dispatched.length = 1 := by omega
          have hdisp1 : s.dispatched = [2] := by
            have := hs.disp_val
            rw [hd1'] at this
            simpa using this
          have hx3 : x = 3 := by rw [hx, hd1']; rfl
          subst hx3
          obtain rfl : wq = [1, 0] := by rw [hwq, if_neg hd0]
          replace h : some
              ({ s with genQ := [],
                        dispatched := s.dispatched ++ [3],
                        w1Q := if s.w1Done = true then s.w1Q
                          else s.w1Q ++ [PipelineMsg.Generated 3],
                        orch := OrchPhase.drain, genRxOpen := false,
                        wSendersOpen := false } : SysState) =
              some s' := h
          rw [if_neg (by simp [hw1f])] at h
          obtain rfl := Option.some.inj h
          have hc10 : s.c1 = 0 := by
            have := hs.c1_le
            simp [recvCount, hd1'] at this
            exact this
          have hw1q : s.w1Q = [] := by
            rw [hs.w1_q, if_neg (by simp [recvCount, hd1'])]
          refine { no_abort := hs.no_abort, not_crashed := by simp,
                   disp_le := ?_, disp_val := ?_,
                   phase_disp := ?_, phase_nd := ?_,
                   gen_sent := hs.gen_sent, gen_num := hs.gen_num,
                   gen_done := fun _ => rfl, gen_q := ?_,
                   c0_le := ?_, w0_q := ?_, c1_le := ?_, w1_q := ?_,
                   w0_done := ?_, w1_done := ?_, produced := hs.produced,
                   mq_shape := hs.mq_shape, mrg_done := hs.mrg_done,
                   res_q := hs.res_q, res_drained := hs.res_drained,
                   orch_done := ?_ }
          · show (s.dispatched ++ [3]).length ≤ 2
            simp [hdisp1]
          · show s.dispatched ++ [3] = [2, 3].take (s.dispatched ++ [3]).length
            simp [hdisp1]
          · intro wq' hw
            simp at hw
          · intro _
            refine ⟨by simp [hdisp1], rfl, rfl, rfl⟩
          · intro hh
            simp at hh
          · show s.c0 ≤ recvCount 1 (s.dispatched ++ [3]).length
            have := hs.c0_le
            simp [recvCount, hd1'] at this
            simp [recvCount, hdisp1]
            omega
          · show s.w0Q =
              if s.c0 < recvCount 1 (s.dispatched ++ [3]).length
              then [PipelineMsg.Generated 2] else []
            have hw := hs.w0_q
            simp [recvCount, hd1'] at hw
            simp [recvCount, hdisp1]
            exact hw
          · show s.c1 ≤ recvCount 2 (s.dispatched ++ [3]).length
            simp [recvCount, hdisp1, hc10]
          · show s.w1Q ++ [PipelineMsg.Generated 3] =
              if s.c1 < recvCount 2 (s.dispatched ++ [3]).length
              then [PipelineMsg.Generated 3] else []
            simp [recvCount, hdisp1, hc10, hw1q]
          · intro hh
            exact absurd (hs.w0_done hh).1 (by simp [hso])
          · intro hh
            exact absurd hh (by simp [hw1f])
          · intro hh
            simp at hh

theorem stepThread_inv {t : Tid} {s s' : SysState} (hs : SysInv s)
    (h : stepThread t s = some s') : SysInv s' := by
  cases t
  · exact genStep_inv hs h
  · exact orchStep_inv hs h
  · exact w0Step_inv hs h
  · exact w1Step_inv hs h
  · exact mrgStep_inv hs h

/-- Every state reachable under any schedule satisfies the invariant. -/
theorem run_inv (sched : List Tid) : SysInv (run sched) := by
  have key : ∀ (l : List Tid) (s : SysState), SysInv s →
      SysInv (l.foldl (fun s t => (stepThread t s).getD s) s) := by
    intro l
    induction l with
    | nil => exact fun s hs => hs
    | cons t l ih =>
      intro s hs
      simp only [List.foldl_cons]
      apply ih
      cases hstep : stepThread t s with
      | none => exact hs
      | some s2 => exact stepThread_inv hs hstep
  exact key sched initState initState_inv

/-- In any reachable state in which the orchestrator has finished, exactly the
values 2 and 3 were dispatched and the multiset of drained payloads is the
multiset of their squares. -/
theorem done_state {s : SysState} (hs : SysInv s)
    (hdone : s.orch = OrchPhase.done) :
    s.dispatched = [2, 3] ∧ (↑s.drained : Multiset Nat) = {4, 9} := by
  obtain ⟨hmd, hres⟩ := hs.orch_done hdone
  obtain ⟨hw0, hw1, hmq⟩ := hs.mrg_done hmd
  have hd2 : s.dispatched.length = 2 := (hs.phase_nd (Or.inr hdone)).1
  have hdisp : s.dispatched = [2, 3] := by
    have := hs.disp_val
    rw [hd2] at this
    simpa using this
  have hc0 : s.c0 = 1 := by
    have := (hs.w0_done hw0).2
    simp [recvCount, hd2] at this
    exact this
  have hc1 : s.c1 = 1 := by
    have := (hs.w1_done hw1).2
    simp [recvCount, hd2] at this
    exact this
  have hprod := hs.produced
  rw [hmq, hc0, hc1] at hprod
  simp at hprod
  have hlen : s.mergeRecv.length ≤ s.drained.length := by
    have h0 := hres ▸ hs.res_q
    have h1 : s.mergeRecv.drop s.drained.length = [] := by
      cases hh : s.mergeRecv.drop s.drained.length with
      | nil => rfl
      | cons a l =>
        rw [hh] at h0
        simp at h0
    rw [List.drop_eq_nil_iff] at h1
    exact h1
  have hdr : s.drained = s.mergeRecv := by
    rw [hs.res_drained]
    exact List.take_of_length_le hlen
  refine ⟨hdisp, ?_⟩
  rw [hdr, hprod]
  decide

theorem rrAssign_nil {α : Type} (ms : List α) : rrAssign ms [] = [] := by
  cases ms <;> rfl

theorem workerLoad_append {α : Type} (w : Nat) (a b : List (Nat × α)) :
    workerLoad w (a ++ b) = workerLoad w a + workerLoad w b := by
  simp [workerLoad, List.filter_append]

theorem workerLoad_cons {α : Type} (w v : Nat) (m : α)
    (rest : List (Nat × α)) :
    workerLoad w ((v, m) :: rest) =
      (if v = w then 1 else 0) + workerLoad w rest := by
  by_cases h : v = w <;> simp [workerLoad, List.filter_cons, h, Nat.add_comm]

theorem rrAssign_append {α : Type} (ms₁ ms₂ : List α) (q : List Nat) :
    rrAssign (ms₁ ++ ms₂) q =
      rrAssign ms₁ q ++ rrAssign ms₂ (q.rotate ms₁.length) := by
  induction ms₁ generalizing q with
  | nil => simp [rrAssign]
  | cons m ms ih =>
    cases q with
    | nil => simp [rrAssign, rrAssign_nil, List.rotate_nil]
    | cons w ws =>
      show (w, m) :: rrAssign (ms ++ ms₂) (ws ++ [w]) =
        ((w, m) :: rrAssign ms (ws ++ [w])) ++
          rrAssign ms₂ ((w :: ws).rotate (ms.length + 1))
      rw [ih (ws ++ [w]), List.rotate_cons_succ]
      simp

theorem rrAssign_one_round {α : Type} (ms : List α) (q : List Nat)
    (hnd : q.Nodup) (hlen : ms.length ≤ q.length) (w : Nat) :
    workerLoad w (rrAssign ms q) = if w ∈ q.take ms.length then 1 else 0 := by
  induction ms generalizing q with
  | nil => simp [rrAssign, workerLoad]
  | cons m ms ih =>
    cases q with
    | nil => simp at hlen
    | cons v vs =>
      have hv : v ∉ vs := (List.nodup_cons.mp hnd).1
      have hvs : vs.Nodup := (List.nodup_cons.mp hnd).2
      have hnd' : (vs ++ [v]).Nodup := by
        rw [List.nodup_append]
        refine ⟨hvs, List.nodup_singleton v, ?_⟩
        intro a ha hb
        simp at hb
        subst hb
        exact hv ha
      have hmslen : ms.length ≤ vs.length := by
        simpa using hlen
      show workerLoad w ((v, m) :: rrAssign ms (vs ++ [v])) = _
      rw [workerLoad_cons, ih (vs ++ [v]) hnd' (by simp; omega),
        take_append_singleton hmslen, List.length_cons, List.take_succ_cons]
      by_cases hw : v = w
      · subst hw
        have : v ∉ vs.take ms.length := fun hh => hv (List.take_subset _ _ hh)
        simp [this]
      · simp [hw, Ne.symm hw]

theorem rrAssign_balanced {α : Type} :
    ∀ (L : Nat) (ms : List α) (q : List Nat), ms.length = L → q.Nodup →
      q ≠ [] → ∀ w ∈ q,
      workerLoad w (rrAssign ms q) = L / q.length ∨
      workerLoad w (rrAssign ms q) = (L + q.length - 1) / q.length := by
  intro L
  induction L using Nat.strong_induction_on with
  | _ L ih =>
    intro ms q hms hnd hne w hw
    have hq0 : 0 < q.length := List.length_pos.mpr hne
    subst hms
    by_cases hsmall : ms.length < q.length
    · rw [rrAssign_one_round ms q hnd (le_of_lt hsmall) w]
      by_cases hmem : w ∈ q.take ms.length
      · right
        rw [if_pos hmem]
        have hpos : 0 < ms.length := by
          rcases Nat.eq_zero_or_pos ms.length with hz | hp
          · rw [hz] at hmem
            simp at hmem
          · exact hp
        exact (Nat.div_eq_of_lt_le (by omega) (by omega)).symm
      · left
        rw [if_neg hmem]
        exact (Nat.div_eq_of_lt (by omega)).symm
    · have hNle : q.length ≤ ms.length := le_of_not_lt hsmall
      have htlen : (ms.take q.length).length = q.length := by
        simp [Nat.min_eq_left hNle]
      have hsplit := rrAssign_append (ms.take q.length) (ms.drop q.length) q
      rw [List.take_append_drop, htlen, List.rotate_length] at hsplit
      rw [hsplit, workerLoad_append,
        rrAssign_one_round (ms.take q.length) q hnd (le_of_eq htlen) w,
        htlen, List.take_length, if_pos hw]
      have hdroplen : (ms.drop q.length).length = ms.length - q.length := by
        simp
      have hrec := ih (ms.length - q.length) (by omega) (ms.drop q.length) q
        hdroplen hnd hne w hw
      rcases hrec with hrec | hrec
      · left
        rw [hrec]
        have hcancel : ms.length - q.length + q.length = ms.length := by omega
        conv_rhs => rw [← hcancel]
        rw [Nat.add_div_right _ hq0]
        omega
      · right
        rw [hrec]
        rw [show ms.length - q.length + q.length - 1 =
          ms.length - 1 from by omega]
        rw [show ms.length + q.length - 1 = (ms.length - 1) + q.length from
          by omega, Nat.add_div_right _ hq0]
        omega

/-- C1: in the concrete run with two workers, seed 2 and stop predicate
value = 3, the multiset of payloads of the Merged messages received by the
orchestrator's final drain loop is exactly the multiset containing 4 and 9, in
every interleaving that completes the drain loop; and the drain loop does
complete: a full interleaving reaching the final state exists. -/
theorem claim1_concrete_run :
    (∀ sched : List Tid, (run sched).orch = OrchPhase.done →
      (↑(run sched).drained : Multiset Nat) = {4, 9}) ∧
    (run completeSched).orch = OrchPhase.done := by
  constructor
  · intro sched hdone
    exact (done_state (run_inv sched) hdone).2
  · decide

theorem claim1_concrete_run_witness :
    (↑(run completeSched).drained : Multiset Nat) = {4, 9} :=
  claim1_concrete_run.1 completeSched claim1_concrete_run.2

/-- C2, counterexample: it is not true that every value the generator
successfully sent into the generated channel is eventually received and
dispatched by the orchestrator.  Under the schedule `raceSched` the generator
sends 2, 3 and 4 before the orchestrator dispatches 2 and 3 and breaks;
dropping the receive-end discards the enqueued 4, which is never dispatched
even though the run completes. -/
theorem claim2_counterexample :
    ¬ (∀ sched : List Tid, (run sched).orch = OrchPhase.done →
        ∀ v ∈ (run sched).genSent, v ∈ (run sched).dispatched) := by
  intro hclaim
  have h4 := hclaim raceSched (by decide) 4 (by decide)
  exact absurd h4 (by decide)

/-- C2, amended: channels closed by dropping all send-ends never lose an
enqueued message: in every completed interleaving, the multiset of payloads
drained from the results channel is exactly the multiset of squares of the
values that were dispatched to the workers — every dispatched message
traverses worker, merge and results channels and is processed.  (Messages
still enqueued in the generated channel when the orchestrator drops that
channel's receive-end are discarded, as the counterexample shows.) -/
theorem claim2_no_loss_downstream :
    ∀ sched : List Tid, (run sched).orch = OrchPhase.done →
      (↑(run sched).drained : Multiset Nat) =
        ↑((run sched).dispatched.map (fun v => v * v % 256)) := by
  intro sched hdone
  obtain ⟨hdisp, hmul⟩ := done_state (run_inv sched) hdone
  rw [hdisp, hmul]
  decide

theorem claim2_no_loss_downstream_witness :
    (↑(run completeSched).drained : Multiset Nat) =
      ↑((run completeSched).dispatched.map (fun v => v * v % 256)) :=
  claim2_no_loss_downstream completeSched (by decide)

/-- C3: every value dispatched to a worker in any interleaving is 2 or 3; for
each such value v the square stage computes exactly v * v with no u8
truncation (v * v < 256), and the merge stage forwards the squared payload
unchanged. -/
theorem claim3_square_exact :
    ∀ (sched : List Tid) (v : Nat), v ∈ (run sched).dispatched →
      v * v < 256 ∧
      squareMsg (.Generated v) = .ok (.Squared (v * v)) ∧
      mergeMsg (.Squared (v * v)) = .ok (.Merged (v * v)) := by
  intro sched v hv
  have hd := (run_inv sched).disp_val
  rw [hd] at hv
  have hv' : v ∈ [2, 3] := List.take_subset _ _ hv
  simp only [List.mem_cons, List.mem_singleton, List.not_mem_nil,
    or_false] at hv'
  rcases hv' with rfl | rfl
  · exact ⟨by norm_num, rfl, rfl⟩
  · exact ⟨by norm_num, rfl, rfl⟩

theorem claim3_square_exact_witness :
    2 * 2 < 256 ∧
    squareMsg (.Generated 2) = .ok (.Squared (2 * 2)) ∧
    mergeMsg (.Squared (2 * 2)) = .ok (.Merged (2 * 2)) :=
  claim3_square_exact completeSched 2 (by decide)

/-- C4: the merge stage never terminates before both workers have terminated:
in every reachable state, if the merge thread has exited its loop (and hence
dropped the results send-end) then both square workers have already exited
theirs and dropped their clones of the merge send-end; and the orchestrator's
drain loop can only have ended after the merge stage terminated. -/
theorem claim4_merge_after_workers :
    (∀ sched : List Tid, (run sched).mrgDone = true →
      (run sched).w0Done = true ∧ (run sched).w1Done = true) ∧
    (∀ sched : List Tid, (run sched).orch = OrchPhase.done →
      (run sched).mrgDone = true) := by
  constructor
  · intro sched h
    have hm := (run_inv sched).mrg_done h
    exact ⟨hm.1, hm.2.1⟩
  · intro sched h
    exact ((run_inv sched).orch_done h).1

theorem claim4_merge_after_workers_witness :
    ((run completeSched).w0Done = true ∧ (run completeSched).w1Done = true) ∧
    (run completeSched).mrgDone = true :=
  ⟨claim4_merge_after_workers.1 completeSched (by decide),
   claim4_merge_after_workers.2 completeSched (by decide)⟩

/-- C5: the distributor is round-robin — `rrAssign` pops the front worker,
assigns the message to it and pushes that worker to the back — and
consequently, for a queue of N distinct workers and L dispatched messages with
L ≥ N, every worker receives either the floor or the ceiling of L / N
messages. -/
theorem claim5_round_robin_fairness :
    ∀ (q : List Nat) (msgs : List PipelineMsg), q.Nodup → q ≠ [] →
      q.length ≤ msgs.length → ∀ w ∈ q,
      workerLoad w (rrAssign msgs q) = msgs.length / q.length ∨
      workerLoad w (rrAssign msgs q) =
        (msgs.length + q.length - 1) / q.length := by
  intro q msgs hnd hne _ w hw
  exact rrAssign_balanced msgs.length msgs q rfl hnd hne w hw

theorem claim5_round_robin_fairness_witness :
    workerLoad 0 (rrAssign
        [PipelineMsg.Generated 5, PipelineMsg.Generated 6,
         PipelineMsg.Generated 7] [0, 1]) =
      ([PipelineMsg.Generated 5, PipelineMsg.Generated 6,
        PipelineMsg.Generated 7].length : Nat) / ([0, 1] : List Nat).length ∨
    workerLoad 0 (rrAssign
        [PipelineMsg.Generated 5, PipelineMsg.Generated 6,
         PipelineMsg.Generated 7] [0, 1]) =
      ([PipelineMsg.Generated 5, PipelineMsg.Generated 6,
        PipelineMsg.Generated 7].length + ([0, 1] : List Nat).length - 1) /
        ([0, 1] : List Nat).length :=
  claim5_round_robin_fairness [0, 1]
    [PipelineMsg.Generated 5, PipelineMsg.Generated 6, PipelineMsg.Generated 7]
    (by decide) (by decide) (by decide) 0 (by decide)

theorem genSeq_eq (n : Nat) : genSeq n = (2 + n) % 256 := by
  induction n with
  | zero => rfl
  | succ n ih =>
    show (genSeq n + 1) % 256 = (2 + (n + 1)) % 256
    rw [ih]
    omega

/-- C6, counterexample: the sequence of values sent by the generator is not
strictly increasing throughout: under a schedule in which the generator runs
255 iterations before the orchestrator stops it, the 254th value sent is 255
and the 255th is 0, because the u8 counter wraps around. -/
theorem claim6_counterexample :
    ¬ (∀ (sched : List Tid) (n a b : Nat),
        (run sched).genSent.get? n = some a →
        (run sched).genSent.get? (n + 1) = some b → a < b) := by
  intro hclaim
  have h := hclaim wrapSched 253 255 0 (by decide) (by decide)
  omega

/-- C6, amended: the generator's value sequence is `genSeq`, the u8 sequence
2, 3, 4, … taken modulo 256: in every interleaving the list of sent values is
an initial segment of `genSeq`, the first value sent is 2, and the sequence is
strictly increasing for the first 254 values, i.e. until the counter reaches
255 and wraps to 0. -/
theorem claim6_strictly_increasing_amended :
    (∀ sched : List Tid, (run sched).genSent =
      (List.range (run sched).genSent.length).map genSeq) ∧
    genSeq 0 = 2 ∧ (∀ n, n < 253 → genSeq n < genSeq (n + 1)) := by
  refine ⟨fun sched => (run_inv sched).gen_sent, rfl, ?_⟩
  intro n hn
  rw [genSeq_eq n, genSeq_eq (n + 1)]
  omega

theorem claim6_strictly_increasing_amended_witness :
    ((run completeSched).genSent =
      (List.range (run completeSched).genSent.length).map genSeq) ∧
    genSeq 5 < genSeq 6 :=
  ⟨claim6_strictly_increasing_amended.1 completeSched,
   claim6_strictly_increasing_amended.2.2 5 (by norm_num)⟩

/-- C7: the generator checks every send and exits exactly on the first failed
send.  A generator step with the receive-end still open appends the current
value and keeps the loop alive; a step with the receive-end dropped makes the
send fail, terminates the loop and sends nothing; a finished generator takes
no further step; and in every reachable state a terminated generator implies
the receive-end had been dropped — there is no other exit condition. -/
theorem claim7_generator_exit :
    (∀ s s' : SysState, genStep s = some s' →
      ((s.genRxOpen = true ∧ s.genDone = false) →
        s'.genDone = false ∧ s'.genSent = s.genSent ++ [s.genNum]) ∧
      ((s.genRxOpen = false ∧ s.genDone = false) →
        s'.genDone = true ∧ s'.genSent = s.genSent)) ∧
    (∀ s : SysState, s.genDone = true → genStep s = none) ∧
    (∀ sched : List Tid, (run sched).genDone = true →
      (run sched).genRxOpen = false) := by
  refine ⟨?_, ?_, fun sched => (run_inv sched).gen_done⟩
  · intro s s' h
    constructor
    · rintro ⟨hrx, hgd⟩
      unfold genStep at h
      rw [if_neg (by simp [hgd]), if_pos hrx] at h
      obtain rfl := Option.some.inj h
      exact ⟨hgd, rfl⟩
    · rintro ⟨hrx, hgd⟩
      unfold genStep at h
      rw [if_neg (by simp [hgd]), if_neg (by simp [hrx])] at h
      obtain rfl := Option.some.inj h
      exact ⟨rfl, rfl⟩
  · intro s hgd
    unfold genStep
    rw [if_pos hgd]

theorem claim7_generator_exit_witness :
    ((run [Tid.gen]).genDone = false ∧
      (run [Tid.gen]).genSent = initState.genSent ++ [initState.genNum]) ∧
    genStep (run completeSched) = none ∧
    (run completeSched).genRxOpen = false :=
  ⟨(claim7_generator_exit.1 initState (run [Tid.gen]) (by decide)).1
      ⟨by decide, by decide⟩,
   claim7_generator_exit.2.1 (run completeSched) (by decide),
   claim7_generator_exit.2.2 completeSched (by decide)⟩

/-- C8: every stage aborts with its diagnostic on a message variant its
protocol does not accept, and accepts its own variant: the square stage
accepts only Generated, the merge stage only Squared, the orchestrator's
dispatch match only Generated and its drain match only Merged; each other
variant produces the error (panic) arm. -/
theorem claim8_protocol_violation :
    ∀ v : Nat,
      squareMsg (.Squared v) =
        .error "Unexpected message receiving at square stage" ∧
      squareMsg (.Merged v) =
        .error "Unexpected message receiving at square stage" ∧
      (squareMsg (.Generated v)).isOk = true ∧
      mergeMsg (.Generated v) =
        .error "Unexpected message receiving at merge stage" ∧
      mergeMsg (.Merged v) =
        .error "Unexpected message receiving at merge stage" ∧
      (mergeMsg (.Squared v)).isOk = true ∧
      dispatchMsg (.Squared v) =
        .error "Unexpected message receiving from generated stage" ∧
      dispatchMsg (.Merged v) =
        .error "Unexpected message receiving from generated stage" ∧
      (dispatchMsg (.Generated v)).isOk = true ∧
      drainMsg (.Generated v) = .error "Unexpected result" ∧
      drainMsg (.Squared v) = .error "Unexpected result" ∧
      (drainMsg (.Merged v)).isOk = true :=
  fun _ => ⟨rfl, rfl, rfl, rfl, rfl, rfl, rfl, rfl, rfl, rfl, rfl, rfl⟩

theorem claim8_protocol_violation_witness :
    squareMsg (.Squared 7) =
      .error "Unexpected message receiving at square stage" :=
  (claim8_protocol_violation 7).1

/-- C9: the worker queue can never be empty when the orchestrator pops it: in
every reachable state in which the orchestrator is still dispatching, the
queue holds exactly 2 worker send-ends, so the unwrap on pop always succeeds;
accordingly no reachable state is aborted by a panic. -/
theorem claim9_queue_never_empty :
    ∀ sched : List Tid,
      (∀ wq, (run sched).orch = OrchPhase.dispatch wq →
        wq.length = 2 ∧ wq ≠ []) ∧
      (run sched).aborted = false := by
  intro sched
  constructor
  · intro wq hwq
    obtain ⟨_, hw, _, _⟩ := (run_inv sched).phase_disp wq hwq
    subst hw
    by_cases h0 : (run sched).dispatched.length = 0 <;> simp [h0]
  · exact (run_inv sched).no_abort

theorem claim9_queue_never_empty_witness :
    (([0, 1] : List Nat).length = 2 ∧ ([0, 1] : List Nat) ≠ []) ∧
    (run []).aborted = false :=
  ⟨(claim9_queue_never_empty []).1 [0, 1] (by decide),
   (claim9_queue_never_empty []).2⟩

/-- C10, counterexample: successive values sent by the generator do not always
differ by exactly 1: under a schedule in which the generator runs 255
iterations, the value after 255 is 0, not 256, because the u8 counter wraps. -/
theorem claim10_counterexample :
    ¬ (∀ (sched : List Tid) (n a b : Nat),
        (run sched).genSent.get? n = some a →
        (run sched).genSent.get? (n + 1) = some b → b = a + 1) := by
  intro hclaim
  have h := hclaim wrapSched 253 255 0 (by decide) (by decide)
  omega

/-- C10, amended: successive generator values differ by exactly 1 modulo 256
(so the sequence is 2, 3, 4, … until it wraps at 255), and in every
interleaving in which the orchestrator has left its receive loop it has
dispatched exactly the values 2 and 3: the stop predicate value = 3 fires on
the second dispatched value. -/
theorem claim10_consecutive_amended :
    (∀ n, genSeq (n + 1) = (genSeq n + 1) % 256) ∧
    (∀ sched : List Tid,
      ((run sched).orch = OrchPhase.drain ∨
        (run sched).orch = OrchPhase.done) →
      (run sched).dispatched = [2, 3]) := by
  refine ⟨fun n => rfl, ?_⟩
  intro sched h
  have hd2 := ((run_inv sched).phase_nd h).1
  have hv := (run_inv sched).disp_val
  rw [hd2] at hv
  simpa using hv

theorem claim10_consecutive_amended_witness :
    genSeq 1 = (genSeq 0 + 1) % 256 ∧
    (run completeSched).dispatched = [2, 3] :=
  ⟨claim10_consecutive_amended.1 0,
   claim10_consecutive_amended.2 completeSched (Or.inr (by decide))⟩
